import Mathlib

/-!
Verification of the token-cache and credential-generation core of
go-aws-eks-get-token (`main.go`, `cmd_eks.go`).

The development embeds, in order:
* the Gregorian calendar conversions performed by Go's `time` package
  (`time.Parse` with the RFC3339 layout, and `Format(time.RFC3339)`),
* URL-safe unpadded base64 (`base64.RawURLEncoding`, used by `encodeBase64Url`),
* the subset of `encoding/json` semantics exercised by `json.Unmarshal` into
  the `ExecCredential` struct and by `json.MarshalIndent`,
* the program's own functions: `tryReadValidCache`, `encodeBase64Url`,
  `kubeCacheFilePath`, and the `main` control flow as an effect trace.

Byte strings read from or written to files are modelled as `List Char`;
raw bytes fed to base64 are `List Nat` (each < 256).  The process clock is
modelled at whole-second granularity (`now : Int`, seconds since the Unix
epoch); parsed expiration timestamps keep nanosecond precision, matching
`time.Until`'s nanosecond comparison.
-/

/-- Days from 0001-01-01 to the first day of year `y` (`y ≥ 1`),
in the proleptic Gregorian calendar used by Go's `time` package. -/
def dby (y : Nat) : Nat :=
  365 * (y - 1) + (y - 1) / 4 - (y - 1) / 100 + (y - 1) / 400

/-- Same as `dby` but valid for year 0 as well (the RFC3339 parser accepts
years 0000-9999): year 0 is a leap year, 366 days before 0001-01-01. -/
def dbyZ (y : Nat) : Int :=
  if y = 0 then -366 else (dby y : Int)

/-- Gregorian leap-year test, as in Go's `time.isLeap`. -/
def isLeap (y : Nat) : Bool :=
  y % 4 == 0 && (y % 100 != 0 || y % 400 == 0)

/-- Cumulative days before month `m` (1-based) in a year with `c` leap days
(`c` is 0 or 1), Go's `daysBefore` table. -/
def dbmC (c m : Nat) : Nat :=
  match m with
  | 1 => 0
  | 2 => 31
  | 3 => 59 + c
  | 4 => 90 + c
  | 5 => 120 + c
  | 6 => 151 + c
  | 7 => 181 + c
  | 8 => 212 + c
  | 9 => 243 + c
  | 10 => 273 + c
  | 11 => 304 + c
  | _ => 334 + c

/-- Length of month `m` in a year with `c` leap days. -/
def dimC (c m : Nat) : Nat :=
  if m = 2 then 28 + c
  else if m = 4 ∨ m = 6 ∨ m = 9 ∨ m = 11 then 30
  else 31

/-- Number of leap days of year `y`: 1 in a leap year, otherwise 0. -/
def leapDays (y : Nat) : Nat := if isLeap y then 1 else 0

/-- Go's `daysIn(m, year)`. -/
def daysInMonth (y m : Nat) : Nat := dimC (leapDays y) m

/-- Month and day-of-month from a 0-based day-of-year `n` in a year with
`c` leap days. -/
def monthFromDoyC (c n : Nat) : Nat × Nat :=
  if n < 31 then (1, n + 1)
  else if n < 59 + c then (2, n - 30)
  else if n < 90 + c then (3, n - 58 - c)
  else if n < 120 + c then (4, n - 89 - c)
  else if n < 151 + c then (5, n - 119 - c)
  else if n < 181 + c then (6, n - 150 - c)
  else if n < 212 + c then (7, n - 180 - c)
  else if n < 243 + c then (8, n - 211 - c)
  else if n < 273 + c then (9, n - 242 - c)
  else if n < 304 + c then (10, n - 272 - c)
  else if n < 334 + c then (11, n - 303 - c)
  else (12, n - 333 - c)

/-- Civil date from a day count `g` measured from 0001-01-01, by
400/100/4/1 year-block decomposition (the classic calendar algorithm,
semantically equal to Go's `absDate`). -/
def daysToCivil (g : Nat) : Nat × Nat × Nat :=
  let n400 := g / 146097
  let r := g % 146097
  let n100 := r / 36524
  let r2 := r % 36524
  let n4 := r2 / 1461
  let r3 := r2 % 1461
  let n1 := r3 / 365
  let r4 := r3 % 365
  let year := 400 * n400 + 100 * n100 + 4 * n4 + n1 + 1
  if n1 = 4 ∨ n100 = 4 then (year - 1, 12, 31)
  else
    let c : Nat := if n1 = 3 ∧ (n4 ≠ 24 ∨ n100 = 3) then 1 else 0
    let md := monthFromDoyC c r4
    (year, md.1, md.2)

/-- Day count from 0001-01-01 of a civil date (years 0000-9999 allowed,
hence the `Int` result), Go's `Date` day arithmetic. -/
def civilToDays (y m d : Nat) : Int :=
  dbyZ y + dbmC (leapDays y) m + d - 1

theorem isLeap_iff (y : Nat) :
    isLeap y = true ↔ (y % 4 = 0 ∧ (y % 100 ≠ 0 ∨ y % 400 = 0)) := by
  simp [isLeap]

theorem dbyZ_eq_dby (y : Nat) (h : 1 ≤ y) : dbyZ y = (dby y : Int) := by
  unfold dbyZ
  rw [if_neg (by omega)]

theorem div4_decomp (a b c d : Nat) (hb : b ≤ 3) (hc : c ≤ 24) (hd : d ≤ 3) :
    (400*a+100*b+4*c+d)/4 = 100*a+25*b+c ∧ (400*a+100*b+4*c+d)/100 = 4*a+b ∧
    (400*a+100*b+4*c+d)/400 = a := by
  omega

theorem year_decomp_main (n400 n100 n4 n1 r4 : Nat)
    (h100 : n100 ≤ 3) (h4 : n4 ≤ 24) (h1 : n1 ≤ 3) :
    dby (400*n400+100*n100+4*n4+n1+1) + r4 =
      146097*n400+36524*n100+1461*n4+365*n1+r4 ∧
    ((n1 = 3 ∧ (n4 ≠ 24 ∨ n100 = 3)) ↔
      ((400*n400+100*n100+4*n4+n1+1) % 4 = 0 ∧
        ((400*n400+100*n100+4*n4+n1+1) % 100 ≠ 0 ∨
          (400*n400+100*n100+4*n4+n1+1) % 400 = 0))) := by
  have h := div4_decomp n400 n100 n4 n1 h100 h4 h1
  simp only [dby]
  constructor
  · have e : 400*n400+100*n100+4*n4+n1+1 - 1 = 400*n400+100*n100+4*n4+n1 := by omega
    rw [e, h.1, h.2.1, h.2.2]
    omega
  · constructor
    · rintro ⟨rfl, h2⟩
      omega
    · rintro ⟨m4, m100⟩
      omega

theorem year_decomp_special4 (a b c : Nat) (hb : b ≤ 3) (hc : c ≤ 23) :
    dby (400*a+100*b+4*c+4) + 365 = 146097*a+36524*b+1461*c+1460 ∧
    (400*a+100*b+4*c+4) % 4 = 0 ∧ (400*a+100*b+4*c+4) % 100 ≠ 0 := by
  have h := div4_decomp a b c 3 hb (by omega) (by omega)
  refine ⟨?_, by omega, by omega⟩
  simp only [dby]
  have e : 400*a+100*b+4*c+4 - 1 = 400*a+100*b+4*c+3 := by omega
  rw [e, h.1, h.2.1, h.2.2]
  omega

theorem year_decomp_special400 (a : Nat) :
    dby (400*a+400) + 365 = 146097*a+146096 ∧ (400*a+400) % 400 = 0 ∧
    (400*a+400) % 4 = 0 := by
  have h := div4_decomp a 3 24 3 (by omega) (by omega) (by omega)
  refine ⟨?_, by omega, by omega⟩
  simp only [dby]
  have e : 400*a+400 - 1 = 400*a+100*3+4*24+3 := by omega
  rw [e, h.1, h.2.1, h.2.2]
  omega

theorem monthFromDoyC_spec (c n : Nat) (hc : c ≤ 1) (h : n ≤ 364 + c) (m d : Nat)
    (hmd : monthFromDoyC c n = (m, d)) :
    1 ≤ m ∧ m ≤ 12 ∧ 1 ≤ d ∧ d ≤ dimC c m ∧ dbmC c m + (d - 1) = n := by
  unfold monthFromDoyC at hmd
  rcases Nat.lt_or_ge n 31 with h1 | h1
  · rw [if_pos h1] at hmd
    injection hmd with e1 e2; subst e1; subst e2
    exact ⟨by omega, by omega, by omega, by simp [dimC] <;> omega, by simp [dbmC] <;> omega⟩
  · rw [if_neg (by omega)] at hmd
    rcases Nat.lt_or_ge n (59 + c) with h2 | h2
    · rw [if_pos h2] at hmd
      injection hmd with e1 e2; subst e1; subst e2
      exact ⟨by omega, by omega, by omega, by simp [dimC] <;> omega, by simp [dbmC] <;> omega⟩
    · rw [if_neg (by omega)] at hmd
      rcases Nat.lt_or_ge n (90 + c) with h3 | h3
      · rw [if_pos h3] at hmd
        injection hmd with e1 e2; subst e1; subst e2
        exact ⟨by omega, by omega, by omega, by simp [dimC] <;> omega, by simp [dbmC] <;> omega⟩
      · rw [if_neg (by omega)] at hmd
        rcases Nat.lt_or_ge n (120 + c) with h4 | h4
        · rw [if_pos h4] at hmd
          injection hmd with e1 e2; subst e1; subst e2
          exact ⟨by omega, by omega, by omega, by simp [dimC] <;> omega, by simp [dbmC] <;> omega⟩
        · rw [if_neg (by omega)] at hmd
          rcases Nat.lt_or_ge n (151 + c) with h5 | h5
          · rw [if_pos h5] at hmd
            injection hmd with e1 e2; subst e1; subst e2
            exact ⟨by omega, by omega, by omega, by simp [dimC] <;> omega, by simp [dbmC] <;> omega⟩
          · rw [if_neg (by omega)] at hmd
            rcases Nat.lt_or_ge n (181 + c) with h6 | h6
            · rw [if_pos h6] at hmd
              injection hmd with e1 e2; subst e1; subst e2
              exact ⟨by omega, by omega, by omega, by simp [dimC] <;> omega, by simp [dbmC] <;> omega⟩
            · rw [if_neg (by omega)] at hmd
              rcases Nat.lt_or_ge n (212 + c) with h7 | h7
              · rw [if_pos h7] at hmd
                injection hmd with e1 e2; subst e1; subst e2
                exact ⟨by omega, by omega, by omega, by simp [dimC] <;> omega, by simp [dbmC] <;> omega⟩
              · rw [if_neg (by omega)] at hmd
                rcases Nat.lt_or_ge n (243 + c) with h8 | h8
                · rw [if_pos h8] at hmd
                  injection hmd with e1 e2; subst e1; subst e2
                  exact ⟨by omega, by omega, by omega, by simp [dimC] <;> omega, by simp [dbmC] <;> omega⟩
                · rw [if_neg (by omega)] at hmd
                  rcases Nat.lt_or_ge n (273 + c) with h9 | h9
                  · rw [if_pos h9] at hmd
                    injection hmd with e1 e2; subst e1; subst e2
                    exact ⟨by omega, by omega, by omega, by simp [dimC] <;> omega, by simp [dbmC] <;> omega⟩
                  · rw [if_neg (by omega)] at hmd
                    rcases Nat.lt_or_ge n (304 + c) with h10 | h10
                    · rw [if_pos h10] at hmd
                      injection hmd with e1 e2; subst e1; subst e2
                      exact ⟨by omega, by omega, by omega, by simp [dimC] <;> omega, by simp [dbmC] <;> omega⟩
                    · rw [if_neg (by omega)] at hmd
                      rcases Nat.lt_or_ge n (334 + c) with h11 | h11
                      · rw [if_pos h11] at hmd
                        injection hmd with e1 e2; subst e1; subst e2
                        exact ⟨by omega, by omega, by omega, by simp [dimC] <;> omega, by simp [dbmC] <;> omega⟩
                      · rw [if_neg (by omega)] at hmd
                        injection hmd with e1 e2; subst e1; subst e2
                        exact ⟨by omega, by omega, by omega, by simp [dimC] <;> omega, by simp [dbmC] <;> omega⟩

/-- A day count below `dby 10000` comes from a year with at most four
digits. -/
theorem year_le_9999 (y g : Nat) (h1 : dby y ≤ g) (h2 : g ≤ 3652058) :
    y ≤ 9999 := by
  simp only [dby] at h1
  omega

/-- Round trip of the calendar decomposition: `daysToCivil` produces a
valid civil date whose `civilToDays` is the original day count. -/
theorem daysToCivil_spec (g : Nat) (y m d : Nat) (hg : daysToCivil g = (y, m, d)) :
    1 ≤ y ∧ 1 ≤ m ∧ m ≤ 12 ∧ 1 ≤ d ∧ d ≤ daysInMonth y m ∧
    civilToDays y m d = (g : Int) ∧ dby y ≤ g := by
  simp only [daysToCivil] at hg
  by_cases hsp : g % 146097 % 36524 % 1461 / 365 = 4 ∨ g % 146097 / 36524 = 4
  · rw [if_pos hsp] at hg
    injection hg with e1 e23
    injection e23 with e2 e3
    subst e1; subst e2; subst e3
    rcases hsp with h1 | h100
    · have hb : g % 146097 / 36524 ≤ 3 := by omega
      have hc : g % 146097 % 36524 / 1461 ≤ 23 := by omega
      have Y := year_decomp_special4 (g / 146097) (g % 146097 / 36524)
        (g % 146097 % 36524 / 1461) hb hc
      have hyr : 400 * (g / 146097) + 100 * (g % 146097 / 36524) +
          4 * (g % 146097 % 36524 / 1461) + (g % 146097 % 36524 % 1461 / 365) + 1 - 1 =
          400 * (g / 146097) + 100 * (g % 146097 / 36524) +
          4 * (g % 146097 % 36524 / 1461) + 4 := by omega
      rw [hyr]
      have hL : isLeap (400 * (g / 146097) + 100 * (g % 146097 / 36524) +
          4 * (g % 146097 % 36524 / 1461) + 4) = true := by
        rw [isLeap_iff]; exact ⟨Y.2.1, Or.inl Y.2.2⟩
      refine ⟨by omega, by omega, by omega, by omega, ?_, ?_, by omega⟩
      · simp [daysInMonth, dimC]
      · simp only [civilToDays, leapDays, hL, if_pos]
        rw [dbyZ_eq_dby _ (by omega)]
        simp only [dbmC]
        omega
    · have hr : g % 146097 = 146096 := by omega
      have Y := year_decomp_special400 (g / 146097)
      have hyr : 400 * (g / 146097) + 100 * (g % 146097 / 36524) +
          4 * (g % 146097 % 36524 / 1461) + (g % 146097 % 36524 % 1461 / 365) + 1 - 1 =
          400 * (g / 146097) + 400 := by omega
      rw [hyr]
      have hL : isLeap (400 * (g / 146097) + 400) = true := by
        rw [isLeap_iff]; exact ⟨Y.2.2, Or.inr Y.2.1⟩
      refine ⟨by omega, by omega, by omega, by omega, ?_, ?_, by omega⟩
      · simp [daysInMonth, dimC]
      · simp only [civilToDays, leapDays, hL, if_pos]
        rw [dbyZ_eq_dby _ (by omega)]
        simp only [dbmC]
        omega
  · rw [if_neg hsp] at hg
    injection hg with e1 e23
    injection e23 with e2 e3
    have Y := year_decomp_main (g / 146097) (g % 146097 / 36524)
      (g % 146097 % 36524 / 1461) (g % 146097 % 36524 % 1461 / 365)
      (g % 146097 % 36524 % 1461 % 365) (by omega) (by omega) (by omega)
    have M := monthFromDoyC_spec
      (if g % 146097 % 36524 % 1461 / 365 = 3 ∧
          (g % 146097 % 36524 / 1461 ≠ 24 ∨ g % 146097 / 36524 = 3) then 1 else 0)
      (g % 146097 % 36524 % 1461 % 365) (by split_ifs <;> omega) (by split_ifs <;> omega)
      m d (by rw [← e2, ← e3])
    have hcEq : (if g % 146097 % 36524 % 1461 / 365 = 3 ∧
        (g % 146097 % 36524 / 1461 ≠ 24 ∨ g % 146097 / 36524 = 3) then 1 else 0) =
        leapDays y := by
      subst e1
      simp only [leapDays]
      by_cases hP : g % 146097 % 36524 % 1461 / 365 = 3 ∧
          (g % 146097 % 36524 / 1461 ≠ 24 ∨ g % 146097 / 36524 = 3)
      · rw [if_pos hP]
        have := (Y.2.mp hP)
        rw [if_pos (by rw [isLeap_iff]; exact this)]
      · rw [if_neg hP]
        by_cases hQ : isLeap (400 * (g / 146097) + 100 * (g % 146097 / 36524) +
            4 * (g % 146097 % 36524 / 1461) + g % 146097 % 36524 % 1461 / 365 + 1) = true
        · exact absurd (Y.2.mpr ((isLeap_iff _).mp hQ)) hP
        · rw [if_neg hQ]
    rw [hcEq] at M
    subst e1
    refine ⟨by omega, M.1, M.2.1, M.2.2.1, ?_, ?_, by omega⟩
    · exact M.2.2.2.1
    · simp only [civilToDays]
      rw [dbyZ_eq_dby _ (by omega)]
      have hM := M.2.2.2.2
      have hY := Y.1
      omega

/-- ASCII digit test, Go's `isDigit`. -/
def isDigitChar (c : Char) : Bool := 48 ≤ c.toNat && c.toNat ≤ 57

/-- Numeric value of an ASCII digit. -/
def digitVal (c : Char) : Nat := c.toNat - 48

/-- ASCII digit character for `k ≤ 9`. -/
def digitChar (k : Nat) : Char := Char.ofNat (48 + k)

/-- Two-digit zero-padded decimal rendering (`%02d` for values ≤ 99). -/
def pad2 (x : Nat) : List Char := [digitChar (x / 10), digitChar (x % 10)]

/-- Four-digit zero-padded decimal rendering (`%04d` for values ≤ 9999),
as Go formats the year of times in 0-9999. -/
def pad4 (x : Nat) : List Char :=
  [digitChar (x / 1000), digitChar (x / 100 % 10), digitChar (x / 10 % 10),
    digitChar (x % 10)]

/-- Nanoseconds denoted by a fractional-second digit run: the first nine
digits are significant, scaled up to nine places (Go `parseNanoseconds`). -/
def nsecOfDigits (ds : List Char) : Nat :=
  ((ds.take 9).foldl (fun a c => a * 10 + digitVal c) 0) * 10 ^ (9 - (ds.take 9).length)

/-- Optional fractional-second field: a dot followed by at least one digit
(Go's RFC3339 fast path); anything else is left unconsumed. -/
def parseFrac (s : List Char) : Nat × List Char :=
  match s with
  | '.' :: c :: rest =>
    if isDigitChar c then
      (nsecOfDigits ((c :: rest).takeWhile isDigitChar),
        (c :: rest).dropWhile isDigitChar)
    else (0, s)
  | _ => (0, s)

/-- Timezone suffix of an RFC3339 timestamp: `Z` or `±hh:mm` with
`hh ≤ 23`, `mm ≤ 59`, consuming the whole remaining input (Go's RFC3339
fast path). Returns the zone offset in seconds east of UTC. -/
def parseOffset (s : List Char) : Option Int :=
  match s with
  | ['Z'] => some 0
  | [sg, a, b, ':', c, d] =>
    if (sg = '+' ∨ sg = '-') ∧ isDigitChar a = true ∧ isDigitChar b = true ∧
        isDigitChar c = true ∧ isDigitChar d = true then
      if digitVal a * 10 + digitVal b ≤ 23 ∧ digitVal c * 10 + digitVal d ≤ 59 then
        some (if sg = '-'
          then -((digitVal a * 10 + digitVal b) * 3600 + (digitVal c * 10 + digitVal d) * 60 : Int)
          else ((digitVal a * 10 + digitVal b) * 3600 + (digitVal c * 10 + digitVal d) * 60 : Int))
      else none
    else none
  | _ => none

/-- Go `time.Parse(time.RFC3339, ·)`: strict layout `yyyy-mm-ddThh:mm:ss`
with field range checks, optional fractional seconds, and a mandatory
`Z`/`±hh:mm` zone. The result is nanoseconds since the Unix epoch. -/
def parseRFC3339 (s : List Char) : Option Int :=
  match s with
  | y1 :: y2 :: y3 :: y4 :: '-' :: p1 :: p2 :: '-' :: q1 :: q2 :: 'T' :: h1 :: h2 ::
      ':' :: i1 :: i2 :: ':' :: t1 :: t2 :: rest =>
    if isDigitChar y1 = true ∧ isDigitChar y2 = true ∧ isDigitChar y3 = true ∧
        isDigitChar y4 = true ∧ isDigitChar p1 = true ∧ isDigitChar p2 = true ∧
        isDigitChar q1 = true ∧ isDigitChar q2 = true ∧ isDigitChar h1 = true ∧
        isDigitChar h2 = true ∧ isDigitChar i1 = true ∧ isDigitChar i2 = true ∧
        isDigitChar t1 = true ∧ isDigitChar t2 = true then
      if 1 ≤ digitVal p1 * 10 + digitVal p2 ∧ digitVal p1 * 10 + digitVal p2 ≤ 12 ∧
          1 ≤ digitVal q1 * 10 + digitVal q2 ∧
          digitVal q1 * 10 + digitVal q2 ≤
            daysInMonth (((digitVal y1 * 10 + digitVal y2) * 10 + digitVal y3) * 10 + digitVal y4)
              (digitVal p1 * 10 + digitVal p2) ∧
          digitVal h1 * 10 + digitVal h2 ≤ 23 ∧ digitVal i1 * 10 + digitVal i2 ≤ 59 ∧
          digitVal t1 * 10 + digitVal t2 ≤ 59 then
        match parseOffset (parseFrac rest).2 with
        | some off =>
          some (((civilToDays
              (((digitVal y1 * 10 + digitVal y2) * 10 + digitVal y3) * 10 + digitVal y4)
              (digitVal p1 * 10 + digitVal p2) (digitVal q1 * 10 + digitVal q2) - 719162) * 86400 +
            ((digitVal h1 * 10 + digitVal h2) * 3600 + (digitVal i1 * 10 + digitVal i2) * 60 +
              (digitVal t1 * 10 + digitVal t2) : Nat) - off) * 1000000000 + (parseFrac rest).1)
        | none => none
      else none
    else none
  | _ => none

/-- `time.Parse(time.RFC3339, s)` on a Lean `String`. -/
def parseRFC3339String (s : String) : Option Int := parseRFC3339 s.data

/-- Character list of `t.UTC().Format(time.RFC3339)` for a time `t` given
in whole seconds since the Unix epoch (nonnegative: the program only
formats current times plus a positive duration). -/
def rfc3339FormatSecList (t : Nat) : List Char :=
  let sod := t % 86400
  let ymd := daysToCivil (t / 86400 + 719162)
  pad4 ymd.1 ++ '-' :: pad2 ymd.2.1 ++ '-' :: pad2 ymd.2.2 ++ 'T' :: pad2 (sod / 3600) ++
    ':' :: pad2 (sod % 3600 / 60) ++ ':' :: pad2 (sod % 60) ++ ['Z']

/-- `t.UTC().Format(time.RFC3339)` as a Lean `String` (nonnegative epoch
seconds; negative times do not occur in the modelled flows). -/
def rfc3339FormatSec (t : Int) : String := String.mk (rfc3339FormatSecList t.toNat)

theorem digitChar_spec (k : Nat) (hk : k ≤ 9) :
    isDigitChar (digitChar k) = true ∧ digitVal (digitChar k) = k := by
  interval_cases k <;> exact ⟨rfl, rfl⟩

/-- Every month has at most 31 days. -/
theorem daysInMonth_le_31 (y m : Nat) : daysInMonth y m ≤ 31 := by
  simp only [daysInMonth, dimC, leapDays]
  split_ifs <;> omega

/-- Formatting a nonnegative epoch time of at most 9999-12-31T23:59:59Z
and parsing it back yields exactly the original time (in nanoseconds). -/
theorem parseRFC3339_format_roundtrip (t : Nat) (ht : t ≤ 253402300799) :
    parseRFC3339 (rfc3339FormatSecList t) = some ((t : Int) * 1000000000) := by
  rcases hymd : daysToCivil (t / 86400 + 719162) with ⟨y, m, d⟩
  have S := daysToCivil_spec _ y m d hymd
  obtain ⟨hy1, hm1, hm12, hd1, hdim, hcd, hdby⟩ := S
  have hd31 : d ≤ 31 := le_trans hdim (daysInMonth_le_31 y m)
  have hy9999 : y ≤ 9999 := year_le_9999 y _ hdby (by omega)
  have D1 := digitChar_spec (y / 1000) (by omega)
  have D2 := digitChar_spec (y / 100 % 10) (by omega)
  have D3 := digitChar_spec (y / 10 % 10) (by omega)
  have D4 := digitChar_spec (y % 10) (by omega)
  have D5 := digitChar_spec (m / 10) (by omega)
  have D6 := digitChar_spec (m % 10) (by omega)
  have D7 := digitChar_spec (d / 10) (by omega)
  have D8 := digitChar_spec (d % 10) (by omega)
  have D9 := digitChar_spec (t % 86400 / 3600 / 10) (by omega)
  have D10 := digitChar_spec (t % 86400 / 3600 % 10) (by omega)
  have D11 := digitChar_spec (t % 86400 % 3600 / 60 / 10) (by omega)
  have D12 := digitChar_spec (t % 86400 % 3600 / 60 % 10) (by omega)
  have D13 := digitChar_spec (t % 86400 % 60 / 10) (by omega)
  have D14 := digitChar_spec (t % 86400 % 60 % 10) (by omega)
  simp only [rfc3339FormatSecList, hymd, pad4, pad2, List.cons_append, List.nil_append]
  simp only [parseRFC3339]
  rw [if_pos (by
    exact ⟨D1.1, D2.1, D3.1, D4.1, D5.1, D6.1, D7.1, D8.1, D9.1, D10.1, D11.1, D12.1,
      D13.1, D14.1⟩)]
  rw [D1.2, D2.2, D3.2, D4.2, D5.2, D6.2, D7.2, D8.2, D9.2, D10.2, D11.2, D12.2,
    D13.2, D14.2]
  have hyv : ((y / 1000 * 10 + y / 100 % 10) * 10 + y / 10 % 10) * 10 + y % 10 = y := by
    omega
  have hmv : m / 10 * 10 + m % 10 = m := by omega
  have hdv : d / 10 * 10 + d % 10 = d := by omega
  have hhv : t % 86400 / 3600 / 10 * 10 + t % 86400 / 3600 % 10 = t % 86400 / 3600 := by
    omega
  have hiv : t % 86400 % 3600 / 60 / 10 * 10 + t % 86400 % 3600 / 60 % 10 =
      t % 86400 % 3600 / 60 := by omega
  have htv : t % 86400 % 60 / 10 * 10 + t % 86400 % 60 % 10 = t % 86400 % 60 := by omega
  rw [hyv, hmv, hdv, hhv, hiv, htv]
  rw [if_pos (by
    refine ⟨hm1, hm12, hd1, hdim, by omega, by omega, by omega⟩)]
  have hfrac : parseFrac ['Z'] = (0, ['Z']) := rfl
  have hoff : parseOffset ['Z'] = some 0 := rfl
  simp only [hfrac, hoff]
  rw [hcd]
  refine congrArg some ?_
  have E1 := D1.2
  have E2 := D2.2
  have E3 := D3.2
  have E4 := D4.2
  have E5 := D5.2
  have E6 := D6.2
  have E7 := D7.2
  have E8 := D8.2
  have E9 := D9.2
  have E10 := D10.2
  have E11 := D11.2
  have E12 := D12.2
  have E13 := D13.2
  have E14 := D14.2
  omega

/-- Character `n` of the URL-safe base64 alphabet (`A-Z a-z 0-9 - _`),
Go's `encodeURL` table. -/
def b64UrlChar (n : Nat) : Char :=
  if n < 26 then Char.ofNat (65 + n)
  else if n < 52 then Char.ofNat (97 + (n - 26))
  else if n < 62 then Char.ofNat (48 + (n - 52))
  else if n = 62 then '-' else '_'

/-- `base64.RawURLEncoding.EncodeToString` on a byte sequence: groups of
three bytes become four alphabet characters; a final group of one or two
bytes becomes two or three characters, with no padding. -/
def encodeBase64Url : List Nat → List Char
  | [] => []
  | [b1] => [b64UrlChar (b1 / 4), b64UrlChar (b1 % 4 * 16)]
  | [b1, b2] => [b64UrlChar (b1 / 4), b64UrlChar (b1 % 4 * 16 + b2 / 16),
      b64UrlChar (b2 % 16 * 4)]
  | b1 :: b2 :: b3 :: rest =>
    b64UrlChar (b1 / 4) :: b64UrlChar (b1 % 4 * 16 + b2 / 16) ::
      b64UrlChar (b2 % 16 * 4 + b3 / 64) :: b64UrlChar (b3 % 64) ::
      encodeBase64Url rest

/-- Membership in the URL-safe base64 alphabet. -/
def isBase64UrlChar (c : Char) : Bool :=
  ('A' ≤ c && c ≤ 'Z') || ('a' ≤ c && c ≤ 'z') || ('0' ≤ c && c ≤ '9') ||
    c = '-' || c = '_'

/-- A character string is valid URL-safe unpadded base64 exactly when every
character is in the URL-safe alphabet and its length is not 1 modulo 4
(`base64.RawURLEncoding.DecodeString` accepts precisely these shapes). -/
def validRawUrlBase64 (s : List Char) : Bool :=
  s.all isBase64UrlChar && decide (s.length % 4 ≠ 1)

theorem b64UrlChar_mem (n : Nat) (h : n < 64) : isBase64UrlChar (b64UrlChar n) = true := by
  interval_cases n <;> rfl

theorem encodeBase64Url_all_mem (bs : List Nat) (h : ∀ b ∈ bs, b < 256) :
    (encodeBase64Url bs).all isBase64UrlChar = true := by
  induction bs using encodeBase64Url.induct with
  | case1 => rfl
  | case2 b1 =>
    have hb1 : b1 < 256 := h b1 (by simp)
    simp [encodeBase64Url, b64UrlChar_mem _ (by omega : b1 / 4 < 64),
      b64UrlChar_mem _ (by omega : b1 % 4 * 16 < 64)]
  | case3 b1 b2 =>
    have hb1 : b1 < 256 := h b1 (by simp)
    have hb2 : b2 < 256 := h b2 (by simp)
    simp [encodeBase64Url, b64UrlChar_mem _ (by omega : b1 / 4 < 64),
      b64UrlChar_mem _ (by omega : b1 % 4 * 16 + b2 / 16 < 64),
      b64UrlChar_mem _ (by omega : b2 % 16 * 4 < 64)]
  | case4 b1 b2 b3 rest ih =>
    have hb1 : b1 < 256 := h b1 (by simp)
    have hb2 : b2 < 256 := h b2 (by simp)
    have hb3 : b3 < 256 := h b3 (by simp)
    have hrest : ∀ b ∈ rest, b < 256 := fun b hb => h b (by simp [hb])
    simp [encodeBase64Url, b64UrlChar_mem _ (by omega : b1 / 4 < 64),
      b64UrlChar_mem _ (by omega : b1 % 4 * 16 + b2 / 16 < 64),
      b64UrlChar_mem _ (by omega : b2 % 16 * 4 + b3 / 64 < 64),
      b64UrlChar_mem _ (by omega : b3 % 64 < 64), ih hrest]

theorem encodeBase64Url_length (bs : List Nat) :
    (encodeBase64Url bs).length % 4 ≠ 1 := by
  induction bs using encodeBase64Url.induct with
  | case1 => simp [encodeBase64Url]
  | case2 b1 => simp [encodeBase64Url]
  | case3 b1 b2 => simp [encodeBase64Url]
  | case4 b1 b2 b3 rest ih =>
    simp only [encodeBase64Url, List.length_cons]
    omega

theorem encodeBase64Url_valid (bs : List Nat) (h : ∀ b ∈ bs, b < 256) :
    validRawUrlBase64 (encodeBase64Url bs) = true := by
  simp [validRawUrlBase64, encodeBase64Url_all_mem bs h, encodeBase64Url_length bs]

/-- JSON values, with numbers kept abstract: `json.Unmarshal` into
`ExecCredential` never reads a numeric value (a number in a known string
field is a type error, and unknown fields are dropped). -/
inductive JValue where
  | null
  | bool (b : Bool)
  | num
  | str (s : List Char)
  | arr (elems : List JValue)
  | obj (fields : List (List Char × JValue))

/-- JSON whitespace (`encoding/json`): space, tab, newline, carriage
return. -/
def isJsonWs (c : Char) : Bool := c = ' ' || c = '\t' || c = '\n' || c = '\r'

/-- Drop leading JSON whitespace. -/
def skipWs (s : List Char) : List Char := s.dropWhile isJsonWs

/-- Hexadecimal digit value. -/
def parseHexDigit (c : Char) : Option Nat :=
  if isDigitChar c then some (digitVal c)
  else if 'a' ≤ c ∧ c ≤ 'f' then some (c.toNat - 87)
  else if 'A' ≤ c ∧ c ≤ 'F' then some (c.toNat - 55)
  else none

/-- Body of a JSON string after the opening quote: returns the decoded
characters and the input after the closing quote. Escapes follow
`encoding/json`: the eight single-character escapes, `\uXXXX` with
surrogate-pair handling (lone surrogates become U+FFFD), errors on
unknown escapes and raw control characters. -/
def parseStr : List Char → Option (List Char × List Char)
  | [] => none
  | '"' :: rest => some ([], rest)
  | '\\' :: 'u' :: a :: b :: c :: d :: rest =>
    match parseHexDigit a, parseHexDigit b, parseHexDigit c, parseHexDigit d with
    | some ha, some hb, some hc, some hd =>
      let v := ((ha * 16 + hb) * 16 + hc) * 16 + hd
      if 0xD800 ≤ v ∧ v ≤ 0xDBFF then
        match rest with
        | '\\' :: 'u' :: e :: f :: g :: i :: rest2 =>
          match parseHexDigit e, parseHexDigit f, parseHexDigit g, parseHexDigit i with
          | some he, some hf, some hg, some hi =>
            let w := ((he * 16 + hf) * 16 + hg) * 16 + hi
            if 0xDC00 ≤ w ∧ w ≤ 0xDFFF then
              (parseStr rest2).map (fun r =>
                (Char.ofNat (0x10000 + (v - 0xD800) * 0x400 + (w - 0xDC00)) :: r.1, r.2))
            else
              (parseStr ('\\' :: 'u' :: e :: f :: g :: i :: rest2)).map
                (fun r => (Char.ofNat 0xFFFD :: r.1, r.2))
          | _, _, _, _ =>
            (parseStr ('\\' :: 'u' :: e :: f :: g :: i :: rest2)).map
              (fun r => (Char.ofNat 0xFFFD :: r.1, r.2))
        | r1 => (parseStr r1).map (fun r => (Char.ofNat 0xFFFD :: r.1, r.2))
      else if 0xDC00 ≤ v ∧ v ≤ 0xDFFF then
        (parseStr rest).map (fun r => (Char.ofNat 0xFFFD :: r.1, r.2))
      else
        (parseStr rest).map (fun r => (Char.ofNat v :: r.1, r.2))
    | _, _, _, _ => none
  | '\\' :: e :: rest =>
    match e with
    | '"' => (parseStr rest).map (fun r => ('"' :: r.1, r.2))
    | '\\' => (parseStr rest).map (fun r => ('\\' :: r.1, r.2))
    | '/' => (parseStr rest).map (fun r => ('/' :: r.1, r.2))
    | 'b' => (parseStr rest).map (fun r => (Char.ofNat 8 :: r.1, r.2))
    | 'f' => (parseStr rest).map (fun r => (Char.ofNat 12 :: r.1, r.2))
    | 'n' => (parseStr rest).map (fun r => ('\n' :: r.1, r.2))
    | 'r' => (parseStr rest).map (fun r => ('\r' :: r.1, r.2))
    | 't' => (parseStr rest).map (fun r => ('\t' :: r.1, r.2))
    | _ => none
  | c :: rest =>
    if c.toNat < 32 then none
    else (parseStr rest).map (fun r => (c :: r.1, r.2))

/-- At least one decimal digit, then any further digits; returns the rest. -/
def parseDigitRun (s : List Char) : Option (List Char) :=
  match s with
  | c :: rest => if isDigitChar c then some (rest.dropWhile isDigitChar) else none
  | [] => none

/-- Exponent digits with optional sign. -/
def parseNumExpSign (s : List Char) : Option (List Char) :=
  match s with
  | '+' :: rest => parseDigitRun rest
  | '-' :: rest => parseDigitRun rest
  | _ => parseDigitRun s

/-- Optional exponent part of a JSON number. -/
def parseNumExp (s : List Char) : Option (List Char) :=
  match s with
  | 'e' :: rest => parseNumExpSign rest
  | 'E' :: rest => parseNumExpSign rest
  | _ => some s

/-- Optional fraction then optional exponent of a JSON number. -/
def parseNumFrac (s : List Char) : Option (List Char) :=
  match s with
  | '.' :: rest =>
    match parseDigitRun rest with
    | some rest2 => parseNumExp rest2
    | none => none
  | _ => parseNumExp s

/-- JSON number syntax: optional minus, `0` or nonzero-led digits,
optional fraction, optional exponent. Only the syntax matters here. -/
def parseNum (s : List Char) : Option (List Char) :=
  match (match s with | '-' :: rest => rest | _ => s) with
  | '0' :: rest => parseNumFrac rest
  | c :: rest =>
    if isDigitChar c then parseNumFrac (rest.dropWhile isDigitChar)
    else none
  | [] => none

mutual

/-- One JSON value, fuel-indexed to bound the recursion depth. -/
def parseVal : Nat → List Char → Option (JValue × List Char)
  | 0, _ => none
  | fuel+1, s =>
    match skipWs s with
    | 'n' :: 'u' :: 'l' :: 'l' :: r => some (.null, r)
    | 't' :: 'r' :: 'u' :: 'e' :: r => some (.bool true, r)
    | 'f' :: 'a' :: 'l' :: 's' :: 'e' :: r => some (.bool false, r)
    | '"' :: r =>
      match parseStr r with
      | some (cs, r2) => some (.str cs, r2)
      | none => none
    | '[' :: r => parseArrBody fuel r
    | '\x7b' :: r => parseObjBody fuel r
    | s2 =>
      match parseNum s2 with
      | some r => some (.num, r)
      | none => none

/-- Array body after `[`. -/
def parseArrBody : Nat → List Char → Option (JValue × List Char)
  | 0, _ => none
  | fuel+1, s =>
    match skipWs s with
    | ']' :: r => some (.arr [], r)
    | _ => parseArrLoop fuel s []

/-- Comma-separated array elements. -/
def parseArrLoop : Nat → List Char → List JValue → Option (JValue × List Char)
  | 0, _, _ => none
  | fuel+1, s, acc =>
    match parseVal fuel s with
    | some (v, r) =>
      match skipWs r with
      | ',' :: r2 => parseArrLoop fuel r2 (acc ++ [v])
      | ']' :: r2 => some (.arr (acc ++ [v]), r2)
      | _ => none
    | none => none

/-- Object body after the opening brace. -/
def parseObjBody : Nat → List Char → Option (JValue × List Char)
  | 0, _ => none
  | fuel+1, s =>
    match skipWs s with
    | '\x7d' :: r => some (.obj [], r)
    | _ => parseObjLoop fuel s []

/-- Comma-separated `"key": value` object members. -/
def parseObjLoop : Nat → List Char → List (List Char × JValue) →
    Option (JValue × List Char)
  | 0, _, _ => none
  | fuel+1, s, acc =>
    match skipWs s with
    | '"' :: r =>
      match parseStr r with
      | some (k, r2) =>
        match skipWs r2 with
        | ':' :: r3 =>
          match parseVal fuel r3 with
          | some (v, r4) =>
            match skipWs r4 with
            | ',' :: r5 => parseObjLoop fuel r5 (acc ++ [(k, v)])
            | '\x7d' :: r5 => some (.obj (acc ++ [(k, v)]), r5)
            | _ => none
          | none => none
        | _ => none
      | none => none
    | _ => none

end

/-- Parse a complete JSON document: one value and nothing but whitespace
after it (`json.Unmarshal` rejects trailing data). -/
def jsonParse (s : List Char) : Option JValue :=
  match parseVal (s.length + 1) s with
  | some (v, rest) => if skipWs rest = [] then some v else none
  | none => none

/-- The `status` object of a `kubectl` ExecCredential. -/
structure ExecCredentialStatus where
  expirationTimestamp : String
  token : String
deriving DecidableEq

/-- The format for kubectl ExecCredential (struct `ExecCredential` in
`main.go` and `cmd_eks.go`). -/
structure ExecCredential where
  apiVersion : String
  kind : String
  status : ExecCredentialStatus
deriving DecidableEq

/-- The zero value of `ExecCredential`, the starting point of
`json.Unmarshal`. -/
def emptyExecCredential : ExecCredential := ⟨"", "", ⟨"", ""⟩⟩

/-- ASCII lower-casing, for `encoding/json`'s case-insensitive field
match. -/
def toLowerAscii (c : Char) : Char :=
  if 'A' ≤ c ∧ c ≤ 'Z' then Char.ofNat (c.toNat + 32) else c

/-- Case-insensitive (ASCII) equality of key and field name. -/
def eqFoldAscii : List Char → List Char → Bool
  | [], [] => true
  | a :: as, b :: bs => toLowerAscii a = toLowerAscii b && eqFoldAscii as bs
  | _, _ => false

/-- Store one JSON object member into the `status` struct: string fields
accept strings (null is a no-op, anything else is a type error), unknown
keys are ignored. -/
def setStatusField (st : ExecCredentialStatus) (k : List Char) (v : JValue) :
    Option ExecCredentialStatus :=
  if eqFoldAscii k "expirationTimestamp".data then
    match v with
    | .str cs => some { st with expirationTimestamp := String.mk cs }
    | .null => some st
    | _ => none
  else if eqFoldAscii k "token".data then
    match v with
    | .str cs => some { st with token := String.mk cs }
    | .null => some st
    | _ => none
  else some st

/-- Store one JSON object member into `ExecCredential`. -/
def setCredField (c : ExecCredential) (k : List Char) (v : JValue) :
    Option ExecCredential :=
  if eqFoldAscii k "apiVersion".data then
    match v with
    | .str cs => some { c with apiVersion := String.mk cs }
    | .null => some c
    | _ => none
  else if eqFoldAscii k "kind".data then
    match v with
    | .str cs => some { c with kind := String.mk cs }
    | .null => some c
    | _ => none
  else if eqFoldAscii k "status".data then
    match v with
    | .obj kvs => (kvs.foldlM (fun st kv => setStatusField st kv.1 kv.2) c.status).map
        (fun st => { c with status := st })
    | .null => some c
    | _ => none
  else some c

/-- `json.Unmarshal(data, &cred)` for `cred : ExecCredential`: syntax-check
and decode the whole input; a top-level null is a no-op; a top-level
non-object value is a type error; object members are applied in order
(later duplicates win). -/
def jsonUnmarshalExecCredential (data : List Char) : Option ExecCredential :=
  match jsonParse data with
  | some (.obj kvs) => kvs.foldlM (fun c kv => setCredField c kv.1 kv.2) emptyExecCredential
  | some .null => some emptyExecCredential
  | _ => none

/-- `maxTokenDuration` (`main.go`): AWS EKS maximum token duration,
900 seconds. Held in seconds. -/
def maxTokenDuration : Int := 900

/-- `cacheExpiryPadding` (`main.go`): 30 seconds. Held in seconds. -/
def cacheExpiryPadding : Int := 30

/-- `tryReadValidCache` (`main.go` / `cmd_eks.go`): read the cached file,
unmarshal it as an `ExecCredential`, parse `status.expirationTimestamp`
as RFC3339, and return the raw contents iff `time.Until(expiry)` exceeds
`cacheExpiryPadding`. The file system read is modelled by the
`file : Option (List Char)` argument (`none` = `os.ReadFile` error), the
clock by `now` in whole seconds; the parsed expiry is in nanoseconds. -/
def tryReadValidCache (now : Int) (file : Option (List Char)) : Option (List Char) :=
  match file with
  | none => none
  | some data =>
    match jsonUnmarshalExecCredential data with
    | none => none
    | some cred =>
      match parseRFC3339String cred.status.expirationTimestamp with
      | none => none
      | some expiry =>
        if expiry - now * 1000000000 > cacheExpiryPadding * 1000000000 then some data
        else none

/-- Cache file name built by `kubeCacheFilePath` in `main.go`:
`fmt.Sprintf("eks-token-%s-%s.json", profile, cluster)`. -/
def kubeCacheFileName (profile cluster : String) : String :=
  "eks-token-" ++ profile ++ "-" ++ cluster ++ ".json"

/-- Cache file name built by `kubeCacheFilePath` in `cmd_eks.go`:
`fmt.Sprintf("eks-token-%s.json", cluster)` — no profile component. -/
def kubeCacheFileNameEksCmd (cluster : String) : String :=
  "eks-token-" ++ cluster ++ ".json"

/-- Split a character list into its `/`-separated segments (keeping empty
segments, as Go's `filepath.Clean` scanner does before skipping them);
`"a/b"` gives `["a","b"]`, a leading `/` gives a leading empty segment. -/
def splitSlash : List Char → List (List Char)
  | [] => [[]]
  | c :: rest =>
    if c = '/' then [] :: splitSlash rest
    else
      match splitSlash rest with
      | seg :: segs => (c :: seg) :: segs
      | [] => [[c]]

/-- The element loop of Go's `filepath.Clean` (Unix separators) as a
stack: empty and `.` elements are dropped; `..` pops the previous element
when one is poppable (`out.w > dotdot` in Go, i.e. the stack has a last
element other than `..`), is dropped at the root of a rooted path, and is
kept otherwise; every other element is appended. -/
def cleanElems (rooted : Bool) : List (List Char) → List (List Char) → List (List Char)
  | stack, [] => stack
  | stack, e :: es =>
    if e = [] ∨ e = ['.'] then cleanElems rooted stack es
    else if e = ['.', '.'] then
      if stack ≠ [] ∧ stack.getLast? ≠ some ['.', '.'] then
        cleanElems rooted stack.dropLast es
      else if rooted then cleanElems rooted stack es
      else cleanElems rooted (stack ++ [['.', '.']]) es
    else cleanElems rooted (stack ++ [e]) es

/-- Join path elements with single slashes. -/
def joinSlash : List (List Char) → List Char
  | [] => []
  | [x] => x
  | x :: y :: xs => x ++ '/' :: joinSlash (y :: xs)

/-- Go's `filepath.Clean` on Unix: `""` cleans to `"."`; a rooted path
keeps its leading `/`; otherwise an empty result is `"."`; the surviving
elements are rejoined with single separators. -/
def cleanPath (s : String) : String :=
  if s.data = [] then "."
  else if s.data.head? = some '/' then
    String.mk ('/' :: joinSlash (cleanElems true [] (splitSlash s.data)))
  else if cleanElems false [] (splitSlash s.data) = [] then "."
  else String.mk (joinSlash (cleanElems false [] (splitSlash s.data)))

/-- Go's `filepath.Join` for two elements: empty elements are skipped and
the slash-joined rest is passed through `Clean` (so the result is always
cleaned; `Join` of all-empty elements is `""`). -/
def goFilepathJoin (a b : String) : String :=
  if a = "" then (if b = "" then "" else cleanPath b)
  else cleanPath (a ++ "/" ++ b)

/-- `kubeCacheFilePath` (`main.go`): `filepath.Join(usr.HomeDir, ".kube")`,
then `filepath.Join(kubeDir, "cache")`, then
`filepath.Join(cacheDir, filename)`. -/
def kubeCacheFilePath (homeDir profile cluster : String) : String :=
  goFilepathJoin (goFilepathJoin (goFilepathJoin homeDir ".kube") "cache")
    (kubeCacheFileName profile cluster)

/-- `kubeCacheFilePath` (`cmd_eks.go`): the same `filepath.Join` chain but
with the profile-free filename. -/
def kubeCacheFilePathEksCmd (homeDir cluster : String) : String :=
  goFilepathJoin (goFilepathJoin (goFilepathJoin homeDir ".kube") "cache")
    (kubeCacheFileNameEksCmd cluster)

/-- The fixed token marker `"k8s-aws-v1."` prepended to the encoded
presigned URL (`main.go` line 145). -/
def tokenMarker : String := "k8s-aws-v1."

/-- The `ExecCredential` built on the issuance path of `main` /
`runGetToken`: fixed apiVersion and kind, expiry
`time.Now().Add(maxTokenDuration).UTC().Format(time.RFC3339)`, token
`"k8s-aws-v1." + encodeBase64Url(presignedURL)`. The presigned URL is the
byte sequence returned by the signing capability. -/
def issuedCred (now : Int) (urlBytes : List Nat) : ExecCredential :=
  { apiVersion := "client.authentication.k8s.io/v1beta1"
    kind := "ExecCredential"
    status :=
      { expirationTimestamp := rfc3339FormatSec (now + maxTokenDuration)
        token := tokenMarker ++ String.mk (encodeBase64Url urlBytes) } }

/-- Lowercase hexadecimal digit. -/
def hexLowerChar (n : Nat) : Char :=
  if n < 10 then Char.ofNat (48 + n) else Char.ofNat (87 + n)

/-- `encoding/json` string escaping (HTML escaping on, as in
`json.Marshal`): quote, backslash, the three HTML-sensitive characters,
control characters, and U+2028/U+2029. -/
def jsonEscapeChar (c : Char) : List Char :=
  if c = '"' then ['\\', '"']
  else if c = '\\' then ['\\', '\\']
  else if c = '\n' then ['\\', 'n']
  else if c = '\r' then ['\\', 'r']
  else if c = '\t' then ['\\', 't']
  else if c = '<' ∨ c = '>' ∨ c = '&' then
    ['\\', 'u', '0', '0', hexLowerChar (c.toNat / 16), hexLowerChar (c.toNat % 16)]
  else if c.toNat < 0x20 then
    ['\\', 'u', '0', '0', hexLowerChar (c.toNat / 16), hexLowerChar (c.toNat % 16)]
  else if c.toNat = 0x2028 ∨ c.toNat = 0x2029 then
    ['\\', 'u', '2', '0', '2', hexLowerChar (c.toNat % 16)]
  else [c]

/-- Escape a whole string for JSON output. -/
def jsonEscape (s : List Char) : List Char := (s.map jsonEscapeChar).join

/-- `json.MarshalIndent(cred, "", "  ")` for an `ExecCredential`: a fixed
two-space-indented object with the struct's fields in declaration
order. -/
def marshalExecCredential (c : ExecCredential) : List Char :=
  "\x7b\n  \"apiVersion\": \"".data ++ jsonEscape c.apiVersion.data ++
  "\",\n  \"kind\": \"".data ++ jsonEscape c.kind.data ++
  "\",\n  \"status\": \x7b\n    \"expirationTimestamp\": \"".data ++
  jsonEscape c.status.expirationTimestamp.data ++
  "\",\n    \"token\": \"".data ++ jsonEscape c.status.token.data ++
  "\"\n  \x7d\n\x7d".data

/-- Observable effects of one invocation, in program order. `stdout s`
and `stderr s` record the text handed to `fmt.Println` /
`fmt.Fprintf(os.Stderr, ...)` (`Println` adds a final newline);
`writeCache out` records an `os.WriteFile` attempt with contents `out`;
`mkCacheDir` is the `os.MkdirAll` for `.kube/cache`; `network` is the
presign call to the signing capability. -/
inductive Effect where
  | mkCacheDir
  | readCache
  | network
  | writeCache (out : List Char)
  | stdout (out : List Char)
  | stderr (msg : String)
deriving DecidableEq

/-- One invocation's inputs and environment: parsed flag values, the
`AWS_PROFILE` variable (Go's `os.Getenv` returns `""` both for unset and
for empty), success of each fallible external step, the clock, the cache
file contents, and the presign result (`none` = failure). -/
structure Invocation where
  region : String
  args : List String
  parseOk : Bool
  output : String
  cluster : String
  awsProfile : String
  homeDirOk : Bool
  mkdirOk : Bool
  now : Int
  cacheFile : Option (List Char)
  configOk : Bool
  presign : Option (List Nat)
  writeOk : Bool

/-- The positional-argument check of `main`: at least two arguments,
`"eks"` then `"get-token"`. -/
def eksGetTokenArgs (args : List String) : Bool :=
  match args with
  | a :: b :: _ => a = "eks" && b = "get-token"
  | _ => false

/-- The control flow of `main` (`main.go`), as the list of effects it
performs and its exit code. Branches appear in source order: region flag
check, subcommand check, sub-flag parse, output check, cluster check,
AWS_PROFILE check, cache path resolution (home lookup, then directory
creation), cache read, AWS config load, presign, cache write, output. -/
def run (inv : Invocation) : List Effect × Nat :=
  if inv.region = "" then ([.stderr "usage"], 1)
  else if eksGetTokenArgs inv.args = false then
    ([.stderr "expected 'eks get-token' subcommand(s)"], 1)
  else if inv.parseOk = false then ([.stderr "error parsing arguments"], 1)
  else if inv.output ≠ "json" then ([.stderr "only 'json' is accepted for --output"], 1)
  else if inv.cluster = "" then ([.stderr "usage"], 1)
  else if inv.awsProfile = "" then
    ([.stderr "AWS_PROFILE environment variable is required"], 1)
  else if inv.homeDirOk = false then ([.stderr "Failed to get cache path"], 1)
  else if inv.mkdirOk = false then ([.mkCacheDir, .stderr "Failed to get cache path"], 1)
  else
    match tryReadValidCache inv.now inv.cacheFile with
    | some data => ([.mkCacheDir, .readCache, .stdout data], 0)
    | none =>
      if inv.configOk = false then
        ([.mkCacheDir, .readCache, .stderr "Failed to load AWS config"], 1)
      else
        match inv.presign with
        | none =>
          ([.mkCacheDir, .readCache, .network, .stderr "Failed to presign STS request"], 1)
        | some url =>
          if inv.writeOk then
            ([.mkCacheDir, .readCache, .network,
              .writeCache (marshalExecCredential (issuedCred inv.now url)),
              .stdout (marshalExecCredential (issuedCred inv.now url))], 0)
          else
            ([.mkCacheDir, .readCache, .network,
              .writeCache (marshalExecCredential (issuedCred inv.now url)),
              .stderr "Failed to write ExecCredential to file"], 1)

/-- A well-formed cached artifact (the exact bytes `main` would write),
expiring at 2023-11-14T22:23:20Z = 1700000600 seconds since the epoch. -/
def sampleArtifact : List Char :=
  ("\x7b\n  \"apiVersion\": \"client.authentication.k8s.io/v1beta1\",\n  \"kind\": \"ExecCredential\",\n  \"status\": \x7b\n    \"expirationTimestamp\": \"2023-11-14T22:23:20Z\",\n    \"token\": \"k8s-aws-v1.abc\"\n  \x7d\n\x7d").data

/-- The decoded form of `sampleArtifact`. -/
def sampleCred : ExecCredential :=
  ⟨"client.authentication.k8s.io/v1beta1", "ExecCredential",
    ⟨"2023-11-14T22:23:20Z", "k8s-aws-v1.abc"⟩⟩

/-- A cached file with wrong `apiVersion`/`kind` markers and an empty
token, but a well-formed future `expirationTimestamp`. -/
def wrongKindArtifact : List Char :=
  ("\x7b \"apiVersion\": \"v0\", \"kind\": \"Wrong\", \"status\": \x7b \"expirationTimestamp\": \"2023-11-14T22:23:20Z\", \"token\": \"\" \x7d \x7d").data

/-- The decoded form of `wrongKindArtifact`. -/
def wrongKindCred : ExecCredential := ⟨"v0", "Wrong", ⟨"2023-11-14T22:23:20Z", ""⟩⟩

/-- Claim C1: for a cached file whose contents unmarshal as an
`ExecCredential` and whose `expirationTimestamp` parses as an RFC3339
time, `tryReadValidCache` returns the contents unchanged exactly when the
expiry lies strictly more than 30 seconds after the current time, and
absent when the expiry is at or before `now + 30s`. -/
theorem C1_readValid_expiry (now : Int) (data : List Char) (cred : ExecCredential)
    (expiry : Int) (hdec : jsonUnmarshalExecCredential data = some cred)
    (hparse : parseRFC3339String cred.status.expirationTimestamp = some expiry) :
    (expiry > (now + 30) * 1000000000 → tryReadValidCache now (some data) = some data) ∧
    (expiry ≤ (now + 30) * 1000000000 → tryReadValidCache now (some data) = none) := by
  simp only [tryReadValidCache]
  rw [hdec]
  dsimp only
  rw [hparse]
  dsimp only
  constructor
  · intro h
    rw [if_pos (by unfold cacheExpiryPadding; omega)]
  · intro h
    rw [if_neg (by unfold cacheExpiryPadding; omega)]

set_option maxRecDepth 400000 in
/-- Claim C1 witness: `sampleArtifact` expires at 1700000600; at
`now = 1700000000` (600 s margin) it is returned unchanged, at
`now = 1700000580` (20 s margin) it is a miss. -/
theorem C1_readValid_expiry_witness :
    tryReadValidCache 1700000000 (some sampleArtifact) = some sampleArtifact ∧
    tryReadValidCache 1700000580 (some sampleArtifact) = none :=
  ⟨(C1_readValid_expiry 1700000000 sampleArtifact sampleCred 1700000600000000000
      (by decide) (by decide)).1 (by decide),
    (C1_readValid_expiry 1700000580 sampleArtifact sampleCred 1700000600000000000
      (by decide) (by decide)).2 (by decide)⟩

/-- Claim C5: `tryReadValidCache` never fails hard: an unreadable or
absent file, contents that do not unmarshal (including an empty file),
and an unparseable `expirationTimestamp` all yield absent. -/
theorem C5_readValid_no_error (now : Int) :
    tryReadValidCache now none = none ∧
    (∀ data, jsonUnmarshalExecCredential data = none →
      tryReadValidCache now (some data) = none) ∧
    (∀ data cred, jsonUnmarshalExecCredential data = some cred →
      parseRFC3339String cred.status.expirationTimestamp = none →
      tryReadValidCache now (some data) = none) := by
  refine ⟨rfl, fun data hdec => ?_, fun data cred hdec hparse => ?_⟩
  · simp only [tryReadValidCache]
    rw [hdec]
  · simp only [tryReadValidCache]
    rw [hdec]
    dsimp only
    rw [hparse]

set_option maxRecDepth 400000 in
/-- Claim C5 witness: the empty file is a benign miss (as is a missing
file and a malformed timestamp). -/
theorem C5_readValid_no_error_witness :
    tryReadValidCache 1700000000 none = none ∧
    tryReadValidCache 1700000000 (some []) = none ∧
    tryReadValidCache 1700000000 (some "not json".data) = none :=
  ⟨(C5_readValid_no_error 1700000000).1,
    (C5_readValid_no_error 1700000000).2.1 [] (by decide),
    (C5_readValid_no_error 1700000000).2.1 "not json".data (by decide)⟩

/-- Claim C10: once the contents unmarshal, the result of
`tryReadValidCache` is determined by `status.expirationTimestamp` (and
the raw bytes) alone — the `apiVersion`, `kind`, and `token` fields are
never inspected. -/
theorem C10_readValid_only_expiry (now : Int) (data : List Char)
    (cred : ExecCredential) (hdec : jsonUnmarshalExecCredential data = some cred) :
    tryReadValidCache now (some data) =
      (match parseRFC3339String cred.status.expirationTimestamp with
       | some expiry =>
         if expiry - now * 1000000000 > cacheExpiryPadding * 1000000000 then some data
         else none
       | none => none) := by
  simp only [tryReadValidCache]
  rw [hdec]
  dsimp only
  cases parseRFC3339String cred.status.expirationTimestamp <;> rfl

set_option maxRecDepth 400000 in
/-- Claim C10 witness: a file with wrong `apiVersion`/`kind` and an empty
`token` but a sufficiently future expiry is returned verbatim. -/
theorem C10_readValid_only_expiry_witness :
    tryReadValidCache 1700000000 (some wrongKindArtifact) = some wrongKindArtifact :=
  (C10_readValid_only_expiry 1700000000 wrongKindArtifact wrongKindCred
    (by decide)).trans (by decide)

/-- The formatted timestamp always ends in the explicit UTC designator
`Z`. -/
theorem rfc3339FormatSecList_ends_Z (t : Nat) :
    ∃ l, rfc3339FormatSecList t = l ++ ['Z'] := by
  refine ⟨pad4 (daysToCivil (t / 86400 + 719162)).1 ++
    '-' :: pad2 (daysToCivil (t / 86400 + 719162)).2.1 ++
    '-' :: pad2 (daysToCivil (t / 86400 + 719162)).2.2 ++
    'T' :: pad2 (t % 86400 / 3600) ++ ':' :: pad2 (t % 86400 % 3600 / 60) ++
    ':' :: pad2 (t % 86400 % 60), ?_⟩
  simp only [rfc3339FormatSecList, List.append_assoc, List.cons_append, List.nil_append]

/-- Claim C2: issuance stamps the artifact with exactly
`now + maxTokenDuration` (900 s), rendered in RFC3339; parsing the stamp
back yields precisely that instant (never less), and the rendering
carries the explicit UTC designator. The hypotheses keep the request time
in the four-digit-year range Go renders with this layout. -/
theorem C2_issuance_expiry (now : Int) (url : List Nat) (h0 : 0 ≤ now)
    (h1 : now + maxTokenDuration ≤ 253402300799) :
    (issuedCred now url).status.expirationTimestamp =
      rfc3339FormatSec (now + maxTokenDuration) ∧
    parseRFC3339String ((issuedCred now url).status.expirationTimestamp) =
      some ((now + maxTokenDuration) * 1000000000) ∧
    ∃ l, ((issuedCred now url).status.expirationTimestamp).data = l ++ ['Z'] := by
  refine ⟨rfl, ?_, ?_⟩
  · show parseRFC3339 (rfc3339FormatSecList (now + maxTokenDuration).toNat) = _
    have ht : (now + maxTokenDuration).toNat ≤ 253402300799 := by
      unfold maxTokenDuration at *
      omega
    rw [parseRFC3339_format_roundtrip _ ht]
    congr 1
    unfold maxTokenDuration at *
    omega
  · exact rfc3339FormatSecList_ends_Z (now + maxTokenDuration).toNat

set_option maxRecDepth 400000 in
/-- Claim C2 witness: at `now = 1700000000` the issued artifact carries
`2023-11-14T22:28:20Z` (= 1700000900), exactly 900 seconds ahead. -/
theorem C2_issuance_expiry_witness :
    (issuedCred 1700000000 []).status.expirationTimestamp =
      rfc3339FormatSec (1700000000 + maxTokenDuration) ∧
    parseRFC3339String ((issuedCred 1700000000 []).status.expirationTimestamp) =
      some ((1700000000 + maxTokenDuration) * 1000000000) ∧
    ∃ l, ((issuedCred 1700000000 []).status.expirationTimestamp).data = l ++ ['Z'] :=
  C2_issuance_expiry 1700000000 [] (by decide) (by decide)

/-- Claim C3: the issued token is the fixed marker `"k8s-aws-v1."`
followed by the URL-safe unpadded base64 encoding of the presigned URL,
so the remainder after the marker is always valid URL-safe unpadded
base64. -/
theorem C3_token_shape (now : Int) (url : List Nat) (h : ∀ b ∈ url, b < 256) :
    (issuedCred now url).status.token = tokenMarker ++ String.mk (encodeBase64Url url) ∧
    ((issuedCred now url).status.token).data = tokenMarker.data ++ encodeBase64Url url ∧
    validRawUrlBase64 (encodeBase64Url url) = true :=
  ⟨rfl, rfl, encodeBase64Url_valid url h⟩

/-- Byte sequence of a concrete presigned URL (ASCII). -/
def sampleUrlBytes : List Nat :=
  "https://sts.us-east-1.amazonaws.com/?x=1".data.map Char.toNat

/-- Claim C3 witness: a concrete presigned URL. -/
theorem C3_token_shape_witness :
    ((issuedCred 1700000000 sampleUrlBytes).status.token).data =
      tokenMarker.data ++ encodeBase64Url sampleUrlBytes ∧
    validRawUrlBase64 (encodeBase64Url sampleUrlBytes) = true :=
  ⟨(C3_token_shape 1700000000 sampleUrlBytes (by decide)).2.1,
    (C3_token_shape 1700000000 sampleUrlBytes (by decide)).2.2⟩

/-- String append acts as list append on the underlying character data. -/
theorem string_data_append (a b : String) : (a ++ b).data = a.data ++ b.data := rfl

theorem splitSlash_ne_nil (l : List Char) : splitSlash l ≠ [] := by
  cases l with
  | nil => simp [splitSlash]
  | cons c rest =>
    simp only [splitSlash]
    split_ifs
    · simp
    · split <;> simp

theorem splitSlash_cons_slash (rest : List Char) :
    splitSlash ('/' :: rest) = [] :: splitSlash rest := by
  simp [splitSlash]

theorem splitSlash_cons_other (c : Char) (rest : List Char) (hc : c ≠ '/') :
    splitSlash (c :: rest) =
      match splitSlash rest with
      | seg :: segs => (c :: seg) :: segs
      | [] => [[c]] := by
  simp only [splitSlash]
  rw [if_neg hc]

theorem splitSlash_noSlash (n : List Char) (h : '/' ∉ n) : splitSlash n = [n] := by
  induction n with
  | nil => rfl
  | cons c rest ih =>
    rw [splitSlash_cons_other c rest (by intro hc; subst hc; exact h (List.mem_cons_self _ _))]
    rw [ih (fun hm => h (List.mem_cons_of_mem c hm))]

theorem splitSlash_append (d n : List Char) (h : '/' ∉ n) :
    splitSlash (d ++ '/' :: n) = splitSlash d ++ [n] := by
  induction d with
  | nil =>
    rw [List.nil_append, splitSlash_cons_slash, splitSlash_noSlash n h]
    rfl
  | cons c d' ih =>
    rw [List.cons_append]
    by_cases hc : c = '/'
    · subst hc
      rw [splitSlash_cons_slash, splitSlash_cons_slash, ih, List.cons_append]
    · rw [splitSlash_cons_other c _ hc, splitSlash_cons_other c _ hc, ih]
      rcases hd' : splitSlash d' with _ | ⟨s0, ss⟩
      · exact absurd hd' (splitSlash_ne_nil d')
      · simp

theorem cleanElems_append_normal (rooted : Bool) (es : List (List Char)) (n : List Char)
    (h0 : n ≠ []) (h1 : n ≠ ['.']) (h2 : n ≠ ['.', '.']) :
    ∀ stack, cleanElems rooted stack (es ++ [n]) = cleanElems rooted stack es ++ [n] := by
  induction es with
  | nil =>
    intro stack
    simp only [List.nil_append, cleanElems]
    rw [if_neg (by push_neg; exact ⟨h0, h1⟩), if_neg h2]
  | cons e es' ih =>
    intro stack
    simp only [List.cons_append, cleanElems]
    split_ifs <;> exact ih _

theorem joinSlash_append_single (S : List (List Char)) (n : List Char) :
    joinSlash (S ++ [n]) = if S = [] then n else joinSlash S ++ '/' :: n := by
  induction S with
  | nil => simp [joinSlash]
  | cons x xs ih =>
    rw [if_neg (by simp)]
    cases xs with
    | nil => simp [joinSlash]
    | cons y t =>
      simp only [List.cons_append, List.append_eq, joinSlash] at ih ⊢
      rw [ih, if_neg (by simp)]
      simp [List.append_assoc]

theorem cleanPath_normal (n : String) (h0 : n.data ≠ []) (hs : '/' ∉ n.data)
    (h1 : n.data ≠ ['.']) (h2 : n.data ≠ ['.', '.']) : cleanPath n = n := by
  unfold cleanPath
  rw [if_neg h0]
  have hr : ¬ n.data.head? = some '/' := by
    cases hd : n.data with
    | nil => exact absurd hd h0
    | cons a t =>
      simp only [List.head?_cons, Option.some.injEq]
      intro ha
      subst ha
      exact hs (by rw [hd]; exact List.mem_cons_self _ _)
  rw [if_neg hr, splitSlash_noSlash n.data hs]
  have hcl : cleanElems false [] [n.data] = [n.data] := by
    simp only [cleanElems]
    rw [if_neg (by push_neg; exact ⟨h0, h1⟩), if_neg h2]
    rfl
  rw [hcl, if_neg (by simp)]
  rfl

theorem cleanPath_app_eval (D n : String) (hD : D.data ≠ []) (hs : '/' ∉ n.data)
    (h0 : n.data ≠ []) (h1 : n.data ≠ ['.']) (h2 : n.data ≠ ['.', '.']) :
    cleanPath (D ++ "/" ++ n) =
      if D.data.head? = some '/' then
        String.mk ('/' :: joinSlash (cleanElems true [] (splitSlash D.data) ++ [n.data]))
      else
        String.mk (joinSlash (cleanElems false [] (splitSlash D.data) ++ [n.data])) := by
  have hdata : (D ++ "/" ++ n).data = D.data ++ '/' :: n.data := by
    rw [string_data_append, string_data_append]
    simp
  obtain ⟨d0, dt, hDd⟩ : ∃ d0 dt, D.data = d0 :: dt := by
    cases hd : D.data with
    | nil => exact absurd hd hD
    | cons a t => exact ⟨a, t, rfl⟩
  unfold cleanPath
  rw [hdata, hDd, List.cons_append]
  rw [if_neg (List.cons_ne_nil _ _)]
  rw [List.head?_cons, List.head?_cons]
  rw [← List.cons_append, splitSlash_append (d0 :: dt) n.data hs]
  rw [cleanElems_append_normal true (splitSlash (d0 :: dt)) n.data h0 h1 h2,
    cleanElems_append_normal false (splitSlash (d0 :: dt)) n.data h0 h1 h2]
  rw [if_neg (show ¬(cleanElems false [] (splitSlash (d0 :: dt)) ++ [n.data] = []) by simp)]

theorem cleanPath_append_inj (D n1 n2 : String) (hD : D.data ≠ [])
    (h1e : n1.data ≠ []) (h1s : '/' ∉ n1.data) (h1d : n1.data ≠ ['.'])
    (h1dd : n1.data ≠ ['.', '.'])
    (h2e : n2.data ≠ []) (h2s : '/' ∉ n2.data) (h2d : n2.data ≠ ['.'])
    (h2dd : n2.data ≠ ['.', '.'])
    (heq : cleanPath (D ++ "/" ++ n1) = cleanPath (D ++ "/" ++ n2)) : n1 = n2 := by
  rw [cleanPath_app_eval D n1 hD h1s h1e h1d h1dd,
    cleanPath_app_eval D n2 hD h2s h2e h2d h2dd] at heq
  by_cases hr : D.data.head? = some '/'
  · rw [if_pos hr, if_pos hr] at heq
    have h5 : ('/' :: joinSlash (cleanElems true [] (splitSlash D.data) ++ [n1.data])) =
        ('/' :: joinSlash (cleanElems true [] (splitSlash D.data) ++ [n2.data])) :=
      congrArg String.data heq
    injection h5 with hhead hj
    rw [joinSlash_append_single, joinSlash_append_single] at hj
    by_cases hT : cleanElems true [] (splitSlash D.data) = []
    · rw [if_pos hT, if_pos hT] at hj
      exact String.ext hj
    · rw [if_neg hT, if_neg hT] at hj
      have h3 := List.append_cancel_left hj
      injection h3 with _ h4
      exact String.ext h4
  · rw [if_neg hr, if_neg hr] at heq
    have hj : joinSlash (cleanElems false [] (splitSlash D.data) ++ [n1.data]) =
        joinSlash (cleanElems false [] (splitSlash D.data) ++ [n2.data]) :=
      congrArg String.data heq
    rw [joinSlash_append_single, joinSlash_append_single] at hj
    by_cases hT : cleanElems false [] (splitSlash D.data) = []
    · rw [if_pos hT, if_pos hT] at hj
      exact String.ext hj
    · rw [if_neg hT, if_neg hT] at hj
      have h3 := List.append_cancel_left hj
      injection h3 with _ h4
      exact String.ext h4

theorem goFilepathJoin_inj (D n1 n2 : String)
    (h1e : n1.data ≠ []) (h1s : '/' ∉ n1.data) (h1d : n1.data ≠ ['.'])
    (h1dd : n1.data ≠ ['.', '.'])
    (h2e : n2.data ≠ []) (h2s : '/' ∉ n2.data) (h2d : n2.data ≠ ['.'])
    (h2dd : n2.data ≠ ['.', '.'])
    (heq : goFilepathJoin D n1 = goFilepathJoin D n2) : n1 = n2 := by
  unfold goFilepathJoin at heq
  by_cases hD : D = ""
  · have hn1 : n1 ≠ "" := fun h => h1e (by rw [h])
    have hn2 : n2 ≠ "" := fun h => h2e (by rw [h])
    rw [if_pos hD, if_pos hD, if_neg hn1, if_neg hn2] at heq
    rw [cleanPath_normal n1 h1e h1s h1d h1dd, cleanPath_normal n2 h2e h2s h2d h2dd] at heq
    exact heq
  · rw [if_neg hD, if_neg hD] at heq
    have hDd : D.data ≠ [] := fun h => hD (String.ext (by rw [h]))
    exact cleanPath_append_inj D n1 n2 hDd h1e h1s h1d h1dd h2e h2s h2d h2dd heq

theorem splice_inj (p1 : List Char) : ∀ (p2 m1 m2 : List Char), '-' ∉ p1 → '-' ∉ p2 →
    p1 ++ '-' :: m1 = p2 ++ '-' :: m2 → p1 = p2 ∧ m1 = m2 := by
  induction p1 with
  | nil =>
    intro p2 m1 m2 _ hp2 heq
    cases p2 with
    | nil => simpa using heq
    | cons b t =>
      simp only [List.nil_append, List.cons_append, List.cons.injEq] at heq
      exact absurd (by rw [← heq.1]; exact List.mem_cons_self _ _) hp2
  | cons a t ih =>
    intro p2 m1 m2 hp1 hp2 heq
    cases p2 with
    | nil =>
      simp only [List.nil_append, List.cons_append, List.cons.injEq] at heq
      exact absurd (by rw [heq.1]; exact List.mem_cons_self _ _) hp1
    | cons b t2 =>
      simp only [List.cons_append, List.cons.injEq] at heq
      obtain ⟨hab, hrest⟩ := heq
      have h := ih t2 m1 m2 (fun hm => hp1 (List.mem_cons_of_mem a hm))
        (fun hm => hp2 (List.mem_cons_of_mem b hm)) hrest
      exact ⟨by rw [hab, h.1], h.2⟩

theorem kubeCacheFileName_data (p c : String) :
    (kubeCacheFileName p c).data =
      'e' :: 'k' :: 's' :: '-' :: 't' :: 'o' :: 'k' :: 'e' :: 'n' :: '-' ::
        (p.data ++ '-' :: (c.data ++ ('.' :: 'j' :: 's' :: 'o' :: 'n' :: []))) := by
  simp only [kubeCacheFileName, string_data_append, List.append_assoc]
  rfl

theorem kubeCacheFileNameEksCmd_data (c : String) :
    (kubeCacheFileNameEksCmd c).data =
      'e' :: 'k' :: 's' :: '-' :: 't' :: 'o' :: 'k' :: 'e' :: 'n' :: '-' ::
        (c.data ++ ('.' :: 'j' :: 's' :: 'o' :: 'n' :: [])) := by
  simp only [kubeCacheFileNameEksCmd, string_data_append, List.append_assoc]
  rfl

theorem kubeCacheFileName_normal (p c : String) (hsp : '/' ∉ p.data)
    (hsc : '/' ∉ c.data) :
    (kubeCacheFileName p c).data ≠ [] ∧ '/' ∉ (kubeCacheFileName p c).data ∧
    (kubeCacheFileName p c).data ≠ ['.'] ∧ (kubeCacheFileName p c).data ≠ ['.', '.'] := by
  rw [kubeCacheFileName_data]
  refine ⟨by simp, ?_, by simp, by simp⟩
  simp +decide [hsp, hsc]

theorem kubeCacheFileNameEksCmd_normal (c : String) (hsc : '/' ∉ c.data) :
    (kubeCacheFileNameEksCmd c).data ≠ [] ∧ '/' ∉ (kubeCacheFileNameEksCmd c).data ∧
    (kubeCacheFileNameEksCmd c).data ≠ ['.'] ∧
    (kubeCacheFileNameEksCmd c).data ≠ ['.', '.'] := by
  rw [kubeCacheFileNameEksCmd_data]
  refine ⟨by simp, ?_, by simp, by simp⟩
  simp +decide [hsc]

/-- Claim C4 counterexample: distinct (profile, cluster) pairs that
collide on the same cache path. First, the hyphen that joins profile and
cluster in the filename also occurs inside identifiers, so
`("a-b", "c")` and `("a", "b-c")` produce one file. Second,
`filepath.Join` cleans the joined path, so a cluster containing path
elements (here `"a/../eks-token-p-b"`, against cluster `"b"` under the
same profile `"p"`) collapses onto another cluster's file. -/
theorem C4_path_collision :
    (kubeCacheFilePath "/home/u" "a-b" "c" = kubeCacheFilePath "/home/u" "a" "b-c" ∧
      ("a-b", "c") ≠ (("a", "b-c") : String × String)) ∧
    (kubeCacheFilePath "/home/u" "p" "a/../eks-token-p-b" =
        kubeCacheFilePath "/home/u" "p" "b" ∧
      ("a/../eks-token-p-b" : String) ≠ "b") := by
  exact ⟨⟨by decide, by decide⟩, ⟨by decide, by decide⟩⟩

/-- Claim C4 (amended): the cache path is a pure function of its inputs,
and for identifiers free of the path separator `/` — profiles also free
of the filename separator `-` — distinct (profile, cluster) pairs yield
distinct paths under the same home directory; in the `cmd_eks.go`
variant, whose filename carries no profile, distinct separator-free
clusters yield distinct paths. -/
theorem C4_path_injective_sepfree (hd p1 c1 p2 c2 : String)
    (hsp1 : '/' ∉ p1.data) (hsc1 : '/' ∉ c1.data) (hsp2 : '/' ∉ p2.data)
    (hsc2 : '/' ∉ c2.data) (hhp1 : '-' ∉ p1.data) (hhp2 : '-' ∉ p2.data)
    (hne : p1 ≠ p2 ∨ c1 ≠ c2) :
    kubeCacheFilePath hd p1 c1 ≠ kubeCacheFilePath hd p2 c2 ∧
    (∀ d1 d2 : String, '/' ∉ d1.data → '/' ∉ d2.data → d1 ≠ d2 →
      kubeCacheFilePathEksCmd hd d1 ≠ kubeCacheFilePathEksCmd hd d2) := by
  constructor
  · intro heq
    unfold kubeCacheFilePath at heq
    have N1 := kubeCacheFileName_normal p1 c1 hsp1 hsc1
    have N2 := kubeCacheFileName_normal p2 c2 hsp2 hsc2
    have hfn : kubeCacheFileName p1 c1 = kubeCacheFileName p2 c2 :=
      goFilepathJoin_inj _ _ _ N1.1 N1.2.1 N1.2.2.1 N1.2.2.2
        N2.1 N2.2.1 N2.2.2.1 N2.2.2.2 heq
    have hfd := congrArg String.data hfn
    rw [kubeCacheFileName_data, kubeCacheFileName_data] at hfd
    simp only [List.cons.injEq, true_and] at hfd
    have hsp := splice_inj p1.data p2.data _ _ hhp1 hhp2 hfd
    rcases hne with hne | hne
    · exact hne (String.ext hsp.1)
    · exact hne (String.ext (List.append_cancel_right hsp.2))
  · intro d1 d2 hs1 hs2 hne heq
    unfold kubeCacheFilePathEksCmd at heq
    have N1 := kubeCacheFileNameEksCmd_normal d1 hs1
    have N2 := kubeCacheFileNameEksCmd_normal d2 hs2
    have hfn : kubeCacheFileNameEksCmd d1 = kubeCacheFileNameEksCmd d2 :=
      goFilepathJoin_inj _ _ _ N1.1 N1.2.1 N1.2.2.1 N1.2.2.2
        N2.1 N2.2.1 N2.2.2.1 N2.2.2.2 heq
    have hfd := congrArg String.data hfn
    rw [kubeCacheFileNameEksCmd_data, kubeCacheFileNameEksCmd_data] at hfd
    simp only [List.cons.injEq, true_and] at hfd
    exact hne (String.ext (List.append_cancel_right hfd))

/-- Claim C4 witness: the amended theorem at genuinely distinct concrete
clusters, in both variants. -/
theorem C4_path_injective_sepfree_witness :
    kubeCacheFilePath "/home/u" "team" "prod" ≠ kubeCacheFilePath "/home/u" "team" "dev" ∧
    kubeCacheFilePathEksCmd "/home/u" "prod" ≠ kubeCacheFilePathEksCmd "/home/u" "dev" :=
  ⟨(C4_path_injective_sepfree "/home/u" "team" "prod" "team" "dev" (by decide) (by decide)
      (by decide) (by decide) (by decide) (by decide) (Or.inr (by decide))).1,
    (C4_path_injective_sepfree "/home/u" "team" "prod" "team" "dev" (by decide) (by decide)
      (by decide) (by decide) (by decide) (by decide) (Or.inr (by decide))).2 "prod" "dev"
      (by decide) (by decide) (by decide)⟩

/-- Claim C6: on a valid cache hit the invocation emits the cached bytes
verbatim and exits 0; the trace contains no signing (network) call and no
cache write. -/
theorem C6_hit_verbatim (inv : Invocation) (data : List Char)
    (h1 : inv.region ≠ "") (h2 : eksGetTokenArgs inv.args = true)
    (h3 : inv.parseOk = true) (h4 : inv.output = "json") (h5 : inv.cluster ≠ "")
    (h6 : inv.awsProfile ≠ "") (h7 : inv.homeDirOk = true) (h8 : inv.mkdirOk = true)
    (hhit : tryReadValidCache inv.now inv.cacheFile = some data) :
    run inv = ([.mkCacheDir, .readCache, .stdout data], 0) ∧
    Effect.network ∉ (run inv).1 ∧ (∀ o, Effect.writeCache o ∉ (run inv).1) := by
  have hrun : run inv = ([.mkCacheDir, .readCache, .stdout data], 0) := by
    simp only [run]
    rw [if_neg h1, if_neg (by simp [h2]), if_neg (by simp [h3]), if_neg (by simp [h4]),
      if_neg h5, if_neg h6, if_neg (by simp [h7]), if_neg (by simp [h8]), hhit]
  refine ⟨hrun, ?_, fun o => ?_⟩
  · rw [hrun]
    simp
  · rw [hrun]
    simp

set_option maxRecDepth 400000 in
/-- Invocation with every input valid and a warm, still-valid cache. -/
def sampleInvocation : Invocation :=
  { region := "eu-west-1", args := ["eks", "get-token"], parseOk := true,
    output := "json", cluster := "prod", awsProfile := "team",
    homeDirOk := true, mkdirOk := true, now := 1700000000,
    cacheFile := some sampleArtifact, configOk := true,
    presign := some sampleUrlBytes, writeOk := true }

set_option maxRecDepth 400000 in
/-- Claim C6 witness: the warm-cache invocation. -/
theorem C6_hit_verbatim_witness :
    run sampleInvocation = ([.mkCacheDir, .readCache, .stdout sampleArtifact], 0) :=
  (C6_hit_verbatim sampleInvocation sampleArtifact (by decide) (by decide) rfl rfl
    (by decide) (by decide) rfl rfl (by decide)).1

/-- Claim C7: on a cache miss with issuance and persistence succeeding,
the freshly marshalled artifact is written to the cache file and then
emitted to standard output, byte-for-byte identical on both channels. -/
theorem C7_miss_write_then_emit (inv : Invocation) (url : List Nat)
    (h1 : inv.region ≠ "") (h2 : eksGetTokenArgs inv.args = true)
    (h3 : inv.parseOk = true) (h4 : inv.output = "json") (h5 : inv.cluster ≠ "")
    (h6 : inv.awsProfile ≠ "") (h7 : inv.homeDirOk = true) (h8 : inv.mkdirOk = true)
    (hmiss : tryReadValidCache inv.now inv.cacheFile = none)
    (h9 : inv.configOk = true) (hurl : inv.presign = some url)
    (h10 : inv.writeOk = true) :
    run inv = ([.mkCacheDir, .readCache, .network,
      .writeCache (marshalExecCredential (issuedCred inv.now url)),
      .stdout (marshalExecCredential (issuedCred inv.now url))], 0) := by
  simp only [run]
  rw [if_neg h1, if_neg (by simp [h2]), if_neg (by simp [h3]), if_neg (by simp [h4]),
    if_neg h5, if_neg h6, if_neg (by simp [h7]), if_neg (by simp [h8]), hmiss]
  dsimp only
  rw [if_neg (by simp [h9]), hurl]
  dsimp only
  rw [if_pos h10]

set_option maxRecDepth 400000 in
/-- Claim C7 witness: the cold-cache invocation writes then emits the
same bytes. -/
theorem C7_miss_write_then_emit_witness :
    run { sampleInvocation with cacheFile := none } =
      ([.mkCacheDir, .readCache, .network,
        .writeCache (marshalExecCredential (issuedCred 1700000000 sampleUrlBytes)),
        .stdout (marshalExecCredential (issuedCred 1700000000 sampleUrlBytes))], 0) :=
  C7_miss_write_then_emit { sampleInvocation with cacheFile := none } sampleUrlBytes
    (by decide) (by decide) rfl rfl (by decide) (by decide) rfl rfl rfl rfl rfl rfl

/-- Claim C8: if the cache write fails after successful issuance, the
invocation reports the error and exits 1 without emitting the artifact
to standard output. -/
theorem C8_write_failure_fatal (inv : Invocation) (url : List Nat)
    (h1 : inv.region ≠ "") (h2 : eksGetTokenArgs inv.args = true)
    (h3 : inv.parseOk = true) (h4 : inv.output = "json") (h5 : inv.cluster ≠ "")
    (h6 : inv.awsProfile ≠ "") (h7 : inv.homeDirOk = true) (h8 : inv.mkdirOk = true)
    (hmiss : tryReadValidCache inv.now inv.cacheFile = none)
    (h9 : inv.configOk = true) (hurl : inv.presign = some url)
    (h10 : inv.writeOk = false) :
    run inv = ([.mkCacheDir, .readCache, .network,
      .writeCache (marshalExecCredential (issuedCred inv.now url)),
      .stderr "Failed to write ExecCredential to file"], 1) ∧
    (∀ o, Effect.stdout o ∉ (run inv).1) ∧ (run inv).2 = 1 := by
  have hrun : run inv = ([.mkCacheDir, .readCache, .network,
      .writeCache (marshalExecCredential (issuedCred inv.now url)),
      .stderr "Failed to write ExecCredential to file"], 1) := by
    simp only [run]
    rw [if_neg h1, if_neg (by simp [h2]), if_neg (by simp [h3]), if_neg (by simp [h4]),
      if_neg h5, if_neg h6, if_neg (by simp [h7]), if_neg (by simp [h8]), hmiss]
    dsimp only
    rw [if_neg (by simp [h9]), hurl]
    dsimp only
    rw [if_neg (by simp [h10])]
  refine ⟨hrun, fun o => ?_, by rw [hrun]⟩
  rw [hrun]
  simp

set_option maxRecDepth 400000 in
/-- Claim C8 witness: write failure on the cold-cache invocation. -/
theorem C8_write_failure_fatal_witness :
    run { sampleInvocation with cacheFile := none, writeOk := false } =
      ([.mkCacheDir, .readCache, .network,
        .writeCache (marshalExecCredential (issuedCred 1700000000 sampleUrlBytes)),
        .stderr "Failed to write ExecCredential to file"], 1) :=
  (C8_write_failure_fatal { sampleInvocation with cacheFile := none, writeOk := false }
    sampleUrlBytes (by decide) (by decide) rfl rfl (by decide) (by decide) rfl rfl rfl
    rfl rfl rfl).1

/-- Claim C9: when `AWS_PROFILE` is absent or empty, the invocation exits
nonzero having performed only error reporting — no cache-directory
creation, no cache read or write, and no network activity. -/
theorem C9_profile_missing (inv : Invocation) (h : inv.awsProfile = "") :
    (run inv).2 = 1 ∧ (∃ m, (run inv).1 = [Effect.stderr m]) ∧
    Effect.mkCacheDir ∉ (run inv).1 ∧ Effect.readCache ∉ (run inv).1 ∧
    Effect.network ∉ (run inv).1 ∧ (∀ o, Effect.writeCache o ∉ (run inv).1) ∧
    (∀ o, Effect.stdout o ∉ (run inv).1) := by
  have hrun : ∃ m, run inv = ([Effect.stderr m], 1) := by
    simp only [run]
    by_cases hA : inv.region = ""
    · rw [if_pos hA]; exact ⟨_, rfl⟩
    · rw [if_neg hA]
      by_cases hB : eksGetTokenArgs inv.args = false
      · rw [if_pos hB]; exact ⟨_, rfl⟩
      · rw [if_neg hB]
        by_cases hC : inv.parseOk = false
        · rw [if_pos hC]; exact ⟨_, rfl⟩
        · rw [if_neg hC]
          by_cases hD : inv.output ≠ "json"
          · rw [if_pos hD]; exact ⟨_, rfl⟩
          · rw [if_neg hD]
            by_cases hE : inv.cluster = ""
            · rw [if_pos hE]; exact ⟨_, rfl⟩
            · rw [if_neg hE, if_pos h]
              exact ⟨_, rfl⟩
  obtain ⟨m, hm⟩ := hrun
  rw [hm]
  exact ⟨rfl, ⟨m, rfl⟩, by simp, by simp, by simp, fun o => by simp, fun o => by simp⟩

/-- Claim C9 witness: an otherwise fully valid invocation with an empty
`AWS_PROFILE`. -/
theorem C9_profile_missing_witness :
    (run { sampleInvocation with awsProfile := "" }).2 = 1 ∧
    Effect.mkCacheDir ∉ (run { sampleInvocation with awsProfile := "" }).1 ∧
    Effect.network ∉ (run { sampleInvocation with awsProfile := "" }).1 :=
  ⟨(C9_profile_missing { sampleInvocation with awsProfile := "" } rfl).1,
    (C9_profile_missing { sampleInvocation with awsProfile := "" } rfl).2.2.1,
    (C9_profile_missing { sampleInvocation with awsProfile := "" } rfl).2.2.2.2.1⟩
